import Mathlib

/-!
Shallow embedding of the dev_journal persistence layer (src-tauri/src/commands.rs
and src-tauri/src/db.rs) and proofs about its specification claims.

Conventions of the embedding:
* SQLite tables are Lean lists of row structures; an `INSERT` appends, an
  `UPDATE ... WHERE` maps over the list, `rowid` assignment for inserts without
  an explicit id is `max existing id + 1` (SQLite's default rowid choice).
* Wall-clock reads (`Utc::now().to_rfc3339()`, the current calendar date) are
  passed in as explicit `now` / `todayStr` arguments.
* `chrono` timestamp parsing is abstracted by explicit function parameters:
  `secondsSince : String → Option Int` models
  `DateTime::parse_from_rfc3339` + subtraction from now (in seconds), and
  `isValidDate : String → Bool` models `NaiveDate::parse_from_str (%Y-%m-%d)`.
* Calendar dates inside the streak computation are integers (day numbers);
  `NaiveDate` subtraction of one day is integer predecessor.
* Fallible SQL statements return `Except String` / `Option String × _`.
-/

/-- Rust `i64::clamp(lo, hi)` (with `lo ≤ hi`). -/
def rustClamp (v lo hi : Int) : Int :=
  if v < lo then lo else if v > hi then hi else v

/-- `normalize_status` (commands.rs): anything outside todo/in_progress/done coerces to todo. -/
def normalizeStatus (status : String) : String :=
  if status = "todo" ∨ status = "in_progress" ∨ status = "done" then status else "todo"

/-- `normalize_priority` (commands.rs). -/
def normalizePriority (priority : Option String) : String :=
  match priority with
  | some p => if p = "low" ∨ p = "medium" ∨ p = "high" ∨ p = "urgent" then p else "medium"
  | none => "medium"

/-- `normalize_time_estimate_minutes` (commands.rs): `value.unwrap_or(0).clamp(0, 10_080)`. -/
def normalizeTimeEstimateMinutes (value : Option Int) : Int :=
  rustClamp (value.getD 0) 0 10080

/-- `normalize_accumulated_seconds` (commands.rs): `value.unwrap_or(0).max(0)`. -/
def normalizeAccumulatedSeconds (value : Option Int) : Int :=
  max (value.getD 0) 0

/-- `elapsed_since` (commands.rs): parse the stored timestamp; on success the
elapsed seconds floored at zero, on parse failure 0. The parse+subtract is the
`secondsSince` parameter. -/
def elapsedSince (secondsSince : String → Option Int) (startedAt : String) : Int :=
  match secondsSince startedAt with
  | some d => max d 0
  | none => 0

/-- `normalize_goal_status` (commands.rs). -/
def normalizeGoalStatus (status : Option String) : String :=
  match status with
  | some st =>
    if st = "active" ∨ st = "paused" ∨ st = "completed" ∨ st = "archived" then st else "active"
  | none => "active"

/-- `normalize_progress` (commands.rs): `progress.unwrap_or(0).clamp(0, 100)`. -/
def normalizeProgress (progress : Option Int) : Int :=
  rustClamp (progress.getD 0) 0 100

/-- `normalize_target_per_week` (commands.rs): `target_per_week.unwrap_or(5).clamp(1, 14)`. -/
def normalizeTargetPerWeek (targetPerWeek : Option Int) : Int :=
  rustClamp (targetPerWeek.getD 5) 1 14

/-- `normalize_habit_color` (commands.rs): default when absent or blank after trimming.
`value.trim().is_empty()` holds exactly when every character is whitespace. -/
def normalizeHabitColor (color : Option String) : String :=
  let fallback := "#60a5fa"
  let value := color.getD fallback
  if value.toList.all (fun c => c.isWhitespace) then fallback else value

/-- `normalize_habit_date` (commands.rs): keep the date if it parses as `%Y-%m-%d`,
otherwise replace it with the current UTC date (`todayStr`). -/
def normalizeHabitDate (isValidDate : String → Bool) (todayStr : String) (date : String) :
    String :=
  if isValidDate date then date else todayStr

/-- The `while parsed_dates.contains(&cursor)` loop of `compute_current_streak`,
with fuel: the run of consecutive member days walks through distinct dates, so
`dates.length` steps always suffice to reach a non-member. -/
def streakFrom (dates : List Int) : Nat → Int → Int
  | 0, _ => 0
  | fuel + 1, cursor =>
    if cursor ∈ dates then 1 + streakFrom dates fuel (cursor - 1) else 0

/-- `compute_current_streak` (commands.rs), over already-parsed dates
(day numbers) and an injected `today`. -/
def computeCurrentStreak (today : Int) (parsedDates : List Int) : Int :=
  if parsedDates = [] then 0
  else if today ∈ parsedDates then streakFrom parsedDates parsedDates.length today
  else if (today - 1) ∈ parsedDates then streakFrom parsedDates parsedDates.length (today - 1)
  else 0

/-- Row of the `entries` table. -/
structure EntryRow where
  id : Int
  date : String
  yesterday : String
  today : String
  created_at : String
deriving DecidableEq

/-- Row of the `pages` table. -/
structure PageRow where
  id : Int
  title : String
  content : String
  created_at : String
  updated_at : String
deriving DecidableEq

/-- Row of the `tasks` table (post-migration-5 schema). -/
structure TaskRow where
  id : Int
  title : String
  description : String
  status : String
  priority : String
  due_date : Option String
  completed_at : Option String
  time_estimate_minutes : Int
  timer_started_at : Option String
  timer_accumulated_seconds : Int
  created_at : String
  updated_at : String
deriving DecidableEq

/-- Row of the `goals` table. -/
structure GoalRow where
  id : Int
  title : String
  description : String
  status : String
  progress : Int
  target_date : Option String
  created_at : String
  updated_at : String
deriving DecidableEq

/-- Row of the `habits` table. -/
structure HabitRow where
  id : Int
  title : String
  description : String
  target_per_week : Int
  color : String
  created_at : String
  updated_at : String
deriving DecidableEq

/-- Row of the `habit_logs` table. -/
structure HabitLogRow where
  id : Int
  habit_id : Int
  date : String
  created_at : String
deriving DecidableEq

/-- The six application tables of the SQLite database. -/
structure Store where
  entries : List EntryRow
  pages : List PageRow
  tasks : List TaskRow
  goals : List GoalRow
  habits : List HabitRow
  habit_logs : List HabitLogRow
deriving DecidableEq

def emptyStore : Store :=
  { entries := [], pages := [], tasks := [], goals := [], habits := [], habit_logs := [] }

/-- SQLite rowid for an INSERT without an explicit id: one more than the
largest existing rowid (0 when the table is empty). -/
def nextRowId (ids : List Int) : Int :=
  ids.foldr (fun i m => max i m) 0 + 1

/-- `save_entry` (commands.rs): `INSERT ... ON CONFLICT(date) DO UPDATE SET
yesterday = excluded.yesterday, today = excluded.today` — on a date conflict
only the two content fields are overwritten, `created_at` is untouched. -/
def saveEntry (d y t now : String) (entries : List EntryRow) : List EntryRow :=
  if entries.any (fun e => e.date == d) then
    entries.map (fun e =>
      if e.date == d then { e with yesterday := y, today := t } else e)
  else
    entries ++ [{ id := nextRowId (entries.map (·.id)),
                  date := d, yesterday := y, today := t, created_at := now }]

/-- `create_task` (commands.rs): insert a new task; timer starts stopped with
zero accumulated seconds; `completed_at` is set exactly when the normalized
status is done. -/
def createTask (title description status : String) (priority due_date : Option String)
    (time_estimate_minutes : Option Int) (now : String) (s : Store) : Store :=
  let st := normalizeStatus status
  let pr := normalizePriority priority
  let completed : Option String := if st = "done" then some now else none
  let est := normalizeTimeEstimateMinutes time_estimate_minutes
  { s with tasks := s.tasks ++ [{
      id := nextRowId (s.tasks.map (·.id)),
      title := title, description := description, status := st, priority := pr,
      due_date := due_date, completed_at := completed,
      time_estimate_minutes := est, timer_started_at := none,
      timer_accumulated_seconds := 0, created_at := now, updated_at := now }] }

/-- `update_task` (commands.rs): full edit; reads the stored timer fields
(absent row reads as none / 0), folds elapsed time and stops the timer when the
new status is done, then updates the row with the given id. -/
def updateTask (id : Int) (title description status : String)
    (priority due_date : Option String) (time_estimate_minutes : Option Int)
    (secondsSince : String → Option Int) (now : String) (s : Store) : Store :=
  let st := normalizeStatus status
  let pr := normalizePriority priority
  let est := normalizeTimeEstimateMinutes time_estimate_minutes
  let row? := s.tasks.find? (fun r => r.id == id)
  let timerStarted0 : Option String :=
    match row? with
    | some r => r.timer_started_at
    | none => none
  let acc0 : Int :=
    match row? with
    | some r => r.timer_accumulated_seconds
    | none => 0
  let timerStarted : Option String := if st = "done" then none else timerStarted0
  let acc : Int :=
    if st = "done" then
      match timerStarted0 with
      | some startedAt => acc0 + elapsedSince secondsSince startedAt
      | none => acc0
    else acc0
  let completed : Option String := if st = "done" then some now else none
  { s with tasks := s.tasks.map (fun r =>
      if r.id == id then
        { r with
          title := title, description := description, status := st, priority := pr,
          due_date := due_date, completed_at := completed, time_estimate_minutes := est,
          timer_started_at := timerStarted, timer_accumulated_seconds := acc,
          updated_at := now }
      else r) }

/-- `update_task_status` (commands.rs): status-only update with the same
timer-folding rule as `update_task`. -/
def updateTaskStatus (id : Int) (status : String) (secondsSince : String → Option Int)
    (now : String) (s : Store) : Store :=
  let st := normalizeStatus status
  let row? := s.tasks.find? (fun r => r.id == id)
  let timerStarted0 : Option String :=
    match row? with
    | some r => r.timer_started_at
    | none => none
  let acc0 : Int :=
    match row? with
    | some r => r.timer_accumulated_seconds
    | none => 0
  let timerStarted : Option String := if st = "done" then none else timerStarted0
  let acc : Int :=
    if st = "done" then
      match timerStarted0 with
      | some startedAt => acc0 + elapsedSince secondsSince startedAt
      | none => acc0
    else acc0
  let completed : Option String := if st = "done" then some now else none
  { s with tasks := s.tasks.map (fun r =>
      if r.id == id then
        { r with
          status := st, completed_at := completed, timer_started_at := timerStarted,
          timer_accumulated_seconds := acc, updated_at := now }
      else r) }

/-- `start_task_timer` (commands.rs): no-op when the task is absent or already
running; otherwise stamps the start time, demoting a done task to in_progress. -/
def startTaskTimer (id : Int) (now : String) (s : Store) : Store :=
  match s.tasks.find? (fun r => r.id == id) with
  | none => s
  | some row =>
    if row.timer_started_at.isSome then s
    else
      let nextStatus := if row.status = "done" then "in_progress" else row.status
      let completed : Option String := if nextStatus = "done" then some now else none
      { s with tasks := s.tasks.map (fun r =>
          if r.id == id then
            { r with
            status := nextStatus, completed_at := completed,
              timer_started_at := some now, updated_at := now }
          else r) }

/-- `pause_task_timer` (commands.rs): no-op when absent or not running;
otherwise folds elapsed time into the accumulator and clears the start stamp. -/
def pauseTaskTimer (id : Int) (secondsSince : String → Option Int) (now : String)
    (s : Store) : Store :=
  match s.tasks.find? (fun r => r.id == id) with
  | none => s
  | some row =>
    match row.timer_started_at with
    | none => s
    | some startedAt =>
      let nextAcc := row.timer_accumulated_seconds + elapsedSince secondsSince startedAt
      { s with tasks := s.tasks.map (fun r =>
          if r.id == id then
            { r with
            timer_started_at := none, timer_accumulated_seconds := nextAcc,
              updated_at := now }
          else r) }

/-- `reset_task_timer` (commands.rs). -/
def resetTaskTimer (id : Int) (now : String) (s : Store) : Store :=
  { s with tasks := s.tasks.map (fun r =>
      if r.id == id then
        { r with timer_started_at := none, timer_accumulated_seconds := 0, updated_at := now }
      else r) }

/-- `create_goal` (commands.rs): normalized status/progress, with progress
forced to 100 when the normalized status is completed. -/
def createGoal (title description : String) (status : Option String) (progress : Option Int)
    (target_date : Option String) (now : String) (s : Store) : Store :=
  let st := normalizeGoalStatus status
  let pr0 := normalizeProgress progress
  let pr := if st = "completed" then 100 else pr0
  { s with goals := s.goals ++ [{
      id := nextRowId (s.goals.map (·.id)),
      title := title, description := description, status := st, progress := pr,
      target_date := target_date, created_at := now, updated_at := now }] }

/-- `update_goal` (commands.rs). -/
def updateGoal (id : Int) (title description : String) (status : Option String)
    (progress : Option Int) (target_date : Option String) (now : String) (s : Store) : Store :=
  let st := normalizeGoalStatus status
  let pr0 := normalizeProgress progress
  let pr := if st = "completed" then 100 else pr0
  { s with goals := s.goals.map (fun r =>
      if r.id == id then
        { r with
          title := title, description := description, status := st, progress := pr,
          target_date := target_date, updated_at := now }
      else r) }

/-- `create_habit` (commands.rs). -/
def createHabit (title description : String) (target_per_week : Option Int)
    (color : Option String) (now : String) (s : Store) : Store :=
  let tp := normalizeTargetPerWeek target_per_week
  let col := normalizeHabitColor color
  { s with habits := s.habits ++ [{
      id := nextRowId (s.habits.map (·.id)),
      title := title, description := description, target_per_week := tp, color := col,
      created_at := now, updated_at := now }] }

/-- `update_habit` (commands.rs). -/
def updateHabit (id : Int) (title description : String) (target_per_week : Option Int)
    (color : Option String) (now : String) (s : Store) : Store :=
  let tp := normalizeTargetPerWeek target_per_week
  let col := normalizeHabitColor color
  { s with habits := s.habits.map (fun r =>
      if r.id == id then
        { r with
          title := title, description := description, target_per_week := tp,
          color := col, updated_at := now }
      else r) }

/-- The `CASE status ... END` ranking of the `get_goals` ORDER BY clause. -/
def goalStatusRank (status : String) : Nat :=
  if status = "active" then 0
  else if status = "paused" then 1
  else if status = "completed" then 2
  else if status = "archived" then 3
  else 4

/-- `target_date IS NULL` of the ORDER BY clause: rows with a target date first. -/
def targetDateNullRank (g : GoalRow) : Nat :=
  match g.target_date with
  | some _ => 0
  | none => 1

/-- Three-way comparison on naturals. -/
def natCmp (a b : Nat) : Ordering :=
  if a < b then .lt else if b < a then .gt else .eq

/-- Byte-order comparison of two strings as character lists (SQLite BINARY
collation: UTF-8 byte order coincides with code-point order). -/
def charListCmp : List Char → List Char → Ordering
  | [], [] => .eq
  | [], _ :: _ => .lt
  | _ :: _, [] => .gt
  | a :: as, b :: bs =>
    if a.toNat < b.toNat then .lt else if b.toNat < a.toNat then .gt else charListCmp as bs

/-- Sort key of a goal row under the `get_goals` ORDER BY clause. -/
structure GoalKey where
  rank : Nat
  nullRank : Nat
  target : List Char
  updated : List Char
deriving DecidableEq

def goalKey (g : GoalRow) : GoalKey :=
  { rank := goalStatusRank g.status,
    nullRank := targetDateNullRank g,
    target := (g.target_date.getD "").toList,
    updated := g.updated_at.toList }

/-- Lexicographic comparison of goal sort keys: status rank, then NULL-last
flag, then `target_date ASC`, then `updated_at DESC` (note the swapped
arguments in the last component). -/
def goalKeyCmp (x y : GoalKey) : Ordering :=
  (natCmp x.rank y.rank).then
    ((natCmp x.nullRank y.nullRank).then
      ((charListCmp x.target y.target).then
        (charListCmp y.updated x.updated)))

/-- Row order of the `get_goals` query: `a` may come before `b`. -/
def goalOrdLE (a b : GoalRow) : Bool :=
  goalKeyCmp (goalKey a) (goalKey b) ≠ .gt

/-- `get_goals` (commands.rs): all goals, sorted by the ORDER BY clause
(SQL guarantees a sorted permutation; ties are broken arbitrarily). -/
def getGoals (s : Store) : List GoalRow :=
  s.goals.mergeSort goalOrdLE

/-- `BackupEntryInput` (commands.rs). -/
structure BackupEntryInput where
  date : String
  yesterday : String
  today : String
  created_at : Option String
deriving DecidableEq

/-- `BackupPageInput` (commands.rs). -/
structure BackupPageInput where
  id : Option Int
  title : String
  content : String
  created_at : Option String
  updated_at : Option String
deriving DecidableEq

/-- `BackupTaskInput` (commands.rs). -/
structure BackupTaskInput where
  id : Option Int
  title : String
  description : String
  status : String
  priority : Option String
  due_date : Option String
  completed_at : Option String
  time_estimate_minutes : Option Int
  timer_started_at : Option String
  timer_accumulated_seconds : Option Int
  created_at : Option String
  updated_at : Option String
deriving DecidableEq

/-- `BackupGoalInput` (commands.rs). -/
structure BackupGoalInput where
  id : Option Int
  title : String
  description : Option String
  status : Option String
  progress : Option Int
  target_date : Option String
  created_at : Option String
  updated_at : Option String
deriving DecidableEq

/-- `BackupHabitInput` (commands.rs). -/
structure BackupHabitInput where
  id : Option Int
  title : String
  description : Option String
  target_per_week : Option Int
  color : Option String
  created_at : Option String
  updated_at : Option String
deriving DecidableEq

/-- `BackupHabitLogInput` (commands.rs). -/
structure BackupHabitLogInput where
  id : Option Int
  habit_id : Int
  date : String
  created_at : Option String
deriving DecidableEq

/-- `BackupPayload` (commands.rs). -/
structure BackupPayload where
  entries : List BackupEntryInput
  pages : List BackupPageInput
  tasks : List BackupTaskInput
  goals : List BackupGoalInput
  habits : List BackupHabitInput
  habit_logs : List BackupHabitLogInput
deriving DecidableEq

/-- Entry upsert of `import_backup`: `ON CONFLICT(date) DO UPDATE SET
yesterday, today, created_at` — unlike `save_entry`, `created_at` is
overwritten with the payload value (defaulted to `now`). -/
def importEntryRow (now : String) (e : BackupEntryInput) (entries : List EntryRow) :
    List EntryRow :=
  let created := e.created_at.getD now
  if entries.any (fun r => r.date == e.date) then
    entries.map (fun r =>
      if r.date == e.date then
        { r with yesterday := e.yesterday, today := e.today, created_at := created }
      else r)
  else
    entries ++ [{ id := nextRowId (entries.map (·.id)),
                  date := e.date, yesterday := e.yesterday, today := e.today,
                  created_at := created }]

/-- The page row `import_backup` writes for one payload page: missing
`created_at` defaults to `now`, missing `updated_at` to the resolved
`created_at`. -/
def pageRowOfInput (now : String) (id : Int) (p : BackupPageInput) : PageRow :=
  let created := p.created_at.getD now
  { id := id, title := p.title, content := p.content,
    created_at := created, updated_at := p.updated_at.getD created }

/-- Page phase of `import_backup`: explicit id → upsert at that id, no id →
plain insert. -/
def importPageRow (now : String) (p : BackupPageInput) (pages : List PageRow) :
    List PageRow :=
  match p.id with
  | some id =>
    if pages.any (fun r => r.id == id) then
      pages.map (fun r => if r.id == id then pageRowOfInput now id p else r)
    else pages ++ [pageRowOfInput now id p]
  | none => pages ++ [pageRowOfInput now (nextRowId (pages.map (·.id))) p]

/-- The task row `import_backup` writes for one payload task: normalization of
status/priority/estimate/accumulated plus the done-folds-timer rule. -/
def taskRowOfInput (secondsSince : String → Option Int) (now : String) (id : Int)
    (t : BackupTaskInput) : TaskRow :=
  let created := t.created_at.getD now
  let updated := t.updated_at.getD created
  let st := normalizeStatus t.status
  let pr := normalizePriority t.priority
  let est := normalizeTimeEstimateMinutes t.time_estimate_minutes
  let acc0 := normalizeAccumulatedSeconds t.timer_accumulated_seconds
  let timerStarted : Option String := if st = "done" then none else t.timer_started_at
  let acc : Int :=
    if st = "done" then
      match t.timer_started_at with
      | some startedAt => acc0 + elapsedSince secondsSince startedAt
      | none => acc0
    else acc0
  { id := id, title := t.title, description := t.description, status := st, priority := pr,
    due_date := t.due_date, completed_at := t.completed_at,
    time_estimate_minutes := est, timer_started_at := timerStarted,
    timer_accumulated_seconds := acc, created_at := created, updated_at := updated }

/-- Task phase of `import_backup`. -/
def importTaskRow (secondsSince : String → Option Int) (now : String)
    (t : BackupTaskInput) (tasks : List TaskRow) : List TaskRow :=
  match t.id with
  | some id =>
    if tasks.any (fun r => r.id == id) then
      tasks.map (fun r => if r.id == id then taskRowOfInput secondsSince now id t else r)
    else tasks ++ [taskRowOfInput secondsSince now id t]
  | none => tasks ++ [taskRowOfInput secondsSince now (nextRowId (tasks.map (·.id))) t]

/-- The goal row `import_backup` writes for one payload goal. -/
def goalRowOfInput (now : String) (id : Int) (g : BackupGoalInput) : GoalRow :=
  let created := g.created_at.getD now
  let updated := g.updated_at.getD created
  let st := normalizeGoalStatus g.status
  let pr0 := normalizeProgress g.progress
  let pr := if st = "completed" then 100 else pr0
  { id := id, title := g.title, description := g.description.getD "", status := st,
    progress := pr, target_date := g.target_date, created_at := created,
    updated_at := updated }

/-- Goal phase of `import_backup`. -/
def importGoalRow (now : String) (g : BackupGoalInput) (goals : List GoalRow) :
    List GoalRow :=
  match g.id with
  | some id =>
    if goals.any (fun r => r.id == id) then
      goals.map (fun r => if r.id == id then goalRowOfInput now id g else r)
    else goals ++ [goalRowOfInput now id g]
  | none => goals ++ [goalRowOfInput now (nextRowId (goals.map (·.id))) g]

/-- The habit row `import_backup` writes for one payload habit. -/
def habitRowOfInput (now : String) (id : Int) (h : BackupHabitInput) : HabitRow :=
  let created := h.created_at.getD now
  let updated := h.updated_at.getD created
  { id := id, title := h.title, description := h.description.getD "",
    target_per_week := normalizeTargetPerWeek h.target_per_week,
    color := normalizeHabitColor h.color, created_at := created, updated_at := updated }

/-- Habit phase of `import_backup`. -/
def importHabitRow (now : String) (h : BackupHabitInput) (habits : List HabitRow) :
    List HabitRow :=
  match h.id with
  | some id =>
    if habits.any (fun r => r.id == id) then
      habits.map (fun r => if r.id == id then habitRowOfInput now id h else r)
    else habits ++ [habitRowOfInput now id h]
  | none => habits ++ [habitRowOfInput now (nextRowId (habits.map (·.id))) h]

/-- Habit-log phase of `import_backup`. An insert-or-update at an explicit id
can violate the table's other uniqueness constraint `UNIQUE(habit_id, date)`
(the `ON CONFLICT(id)` clause only handles id collisions), which makes the SQL
statement fail; without an explicit id the statement upserts on
`(habit_id, date)` and only refreshes `created_at` on conflict. -/
def importHabitLogRow (isValidDate : String → Bool) (todayStr now : String)
    (l : BackupHabitLogInput) (logs : List HabitLogRow) : Except String (List HabitLogRow) :=
  let created := l.created_at.getD now
  let date := normalizeHabitDate isValidDate todayStr l.date
  match l.id with
  | some id =>
    if logs.any (fun r => r.id == id) then
      let updated := logs.map (fun r =>
        if r.id == id then
          { id := id, habit_id := l.habit_id, date := date, created_at := created }
        else r)
      if updated.any (fun r => r.id != id && r.habit_id == l.habit_id && r.date == date) then
        .error "UNIQUE constraint failed: habit_logs.habit_id, habit_logs.date"
      else .ok updated
    else
      if logs.any (fun r => r.habit_id == l.habit_id && r.date == date) then
        .error "UNIQUE constraint failed: habit_logs.habit_id, habit_logs.date"
      else
        .ok (logs ++ [{ id := id, habit_id := l.habit_id, date := date, created_at := created }])
  | none =>
    if logs.any (fun r => r.habit_id == l.habit_id && r.date == date) then
      .ok (logs.map (fun r =>
        if r.habit_id == l.habit_id && r.date == date then { r with created_at := created }
        else r))
    else
      .ok (logs ++ [{ id := nextRowId (logs.map (·.id)), habit_id := l.habit_id,
                      date := date, created_at := created }])

/-- Body of the `import_backup` transaction (commands.rs): optional delete
phase, then entry/page/task/goal/habit/habit-log upserts, all against the
transaction's view of the store; the first failing statement aborts. -/
def importBackupTx (secondsSince : String → Option Int) (isValidDate : String → Bool)
    (todayStr now : String) (payload : BackupPayload) (replaceExisting : Bool)
    (s : Store) : Except String Store :=
  let s0 := if replaceExisting then emptyStore else s
  let entries := payload.entries.foldl (fun acc e => importEntryRow now e acc) s0.entries
  let pages := payload.pages.foldl (fun acc p => importPageRow now p acc) s0.pages
  let tasks := payload.tasks.foldl (fun acc t => importTaskRow secondsSince now t acc) s0.tasks
  let goals := payload.goals.foldl (fun acc g => importGoalRow now g acc) s0.goals
  let habits := payload.habits.foldl (fun acc h => importHabitRow now h acc) s0.habits
  match payload.habit_logs.foldlM
      (fun acc l => importHabitLogRow isValidDate todayStr now l acc) s0.habit_logs with
  | .error e => .error e
  | .ok logs =>
    .ok { entries := entries, pages := pages, tasks := tasks, goals := goals,
          habits := habits, habit_logs := logs }

/-- `import_backup` as observed by the caller: the transaction commits on
success and rolls back on any failure (rusqlite rolls an uncommitted
transaction back when it is dropped), so an error leaves the store untouched. -/
def importBackup (secondsSince : String → Option Int) (isValidDate : String → Bool)
    (todayStr now : String) (payload : BackupPayload) (replaceExisting : Bool)
    (s : Store) : Option String × Store :=
  match importBackupTx secondsSince isValidDate todayStr now payload replaceExisting s with
  | .ok s2 => (none, s2)
  | .error e => (some e, s)

/-- One schema-changing SQL statement as issued by the migration steps of
db.rs. `failing` stands for a statement whose execution errors (I/O failure,
constraint violation, missing table, ...). -/
inductive MigStmt where
  | createTableIfNotExists (table : String) (cols : List String)
  | ensureColumn (table : String) (col : String)
  | createIndexIfNotExists (idx : String)
  | failing (msg : String)
deriving DecidableEq

/-- Schema state of the database: the `schema_migrations` rows (versions),
tables with their column lists, and index names. -/
structure MigDb where
  appliedVersions : List Int
  tables : List (String × List String)
  indexes : List String
deriving DecidableEq

/-- A connection: the database plus the trace of schema statements that were
submitted for execution on it. -/
structure Conn where
  db : MigDb
  log : List MigStmt
deriving DecidableEq

/-- `has_column` introspection (db.rs): the column list of a table, if the
table exists (`PRAGMA table_info` of a missing table yields no rows). -/
def tableCols (db : MigDb) (table : String) : Option (List String) :=
  (db.tables.find? (fun t2 => t2.1 == table)).map (·.2)

/-- Execute one schema statement directly on the connection (autocommit — the
migration runner opens no transaction). `ensureColumn` is the `ensure_column`
helper of db.rs: introspect via `has_column`, then `ALTER TABLE ... ADD COLUMN`
only when missing; the ALTER fails when the table does not exist. -/
def execStmt (stmt : MigStmt) (c : Conn) : Option String × Conn :=
  let c1 : Conn := { c with log := c.log ++ [stmt] }
  match stmt with
  | .createTableIfNotExists table cols =>
    if c1.db.tables.any (fun t2 => t2.1 == table) then (none, c1)
    else (none, { c1 with db := { c1.db with tables := c1.db.tables ++ [(table, cols)] } })
  | .ensureColumn table col =>
    match tableCols c1.db table with
    | none => (some "no such table", c1)
    | some cols =>
      if cols.contains col then (none, c1)
      else
        (none, { c1 with db := { c1.db with tables := c1.db.tables.map (fun t2 =>
          if t2.1 == table then (t2.1, t2.2 ++ [col]) else t2) } })
  | .createIndexIfNotExists idx =>
    if c1.db.indexes.contains idx then (none, c1)
    else (none, { c1 with db := { c1.db with indexes := c1.db.indexes ++ [idx] } })
  | .failing msg => (some msg, c1)

/-- Run statements in sequence; the first error stops execution, with all
effects of the earlier statements kept (no enclosing transaction). -/
def execStmts : List MigStmt → Conn → Option String × Conn
  | [], c => (none, c)
  | stmt :: rest, c =>
    match execStmt stmt c with
    | (some e, c2) => (some e, c2)
    | (none, c2) => execStmts rest c2

/-- `apply_migration` (db.rs): skip a version already recorded in
`schema_migrations`; otherwise run the step's statements on the bare
connection and record the version only after all of them succeeded. -/
def applyMigration (version : Int) (stmts : List MigStmt) (c : Conn) :
    Option String × Conn :=
  if version ∈ c.db.appliedVersions then (none, c)
  else
    match execStmts stmts c with
    | (some e, c2) => (some e, c2)
    | (none, c2) =>
      (none, { c2 with db := { c2.db with
        appliedVersions := c2.db.appliedVersions ++ [version] } })

/-- Step 1 of `run_migrations` (db.rs): base journal/page/task entities. -/
def migrationStep1 : List MigStmt :=
  [.createTableIfNotExists "entries" ["id", "date", "yesterday", "today", "created_at"],
   .createTableIfNotExists "pages" ["id", "title", "content", "created_at", "updated_at"],
   .createTableIfNotExists "tasks" ["id", "title", "description", "status",
                                    "created_at", "updated_at"]]

/-- Step 2: task priority + due date support. -/
def migrationStep2 : List MigStmt :=
  [.ensureColumn "tasks" "priority",
   .ensureColumn "tasks" "due_date",
   .ensureColumn "tasks" "completed_at",
   .createIndexIfNotExists "idx_tasks_status_due_date"]

/-- Step 3: goals domain. -/
def migrationStep3 : List MigStmt :=
  [.createTableIfNotExists "goals" ["id", "title", "description", "status", "progress",
                                    "target_date", "created_at", "updated_at"],
   .createIndexIfNotExists "idx_goals_status_target_date"]

/-- Step 4: habits and daily completion logs. -/
def migrationStep4 : List MigStmt :=
  [.createTableIfNotExists "habits" ["id", "title", "description", "target_per_week",
                                     "color", "created_at", "updated_at"],
   .createTableIfNotExists "habit_logs" ["id", "habit_id", "date", "created_at"],
   .createIndexIfNotExists "idx_habit_logs_habit_date"]

/-- Step 5: persistent task timer fields. -/
def migrationStep5 : List MigStmt :=
  [.ensureColumn "tasks" "time_estimate_minutes",
   .ensureColumn "tasks" "timer_started_at",
   .ensureColumn "tasks" "timer_accumulated_seconds",
   .createIndexIfNotExists "idx_tasks_timer_started_at"]

/-- The `CREATE TABLE IF NOT EXISTS schema_migrations` statement that
`run_migrations` always executes first. -/
def bootstrapStmt : MigStmt :=
  .createTableIfNotExists "schema_migrations" ["version", "applied_at"]

/-- Error propagation of the `?` operator: a failed part short-circuits,
keeping the connection state it left behind. -/
def andThenC (r : Option String × Conn) (f : Conn → Option String × Conn) :
    Option String × Conn :=
  match r with
  | (some e, c) => (some e, c)
  | (none, c) => f c

/-- `run_migrations` (db.rs): bootstrap the version-tracking table, then apply
the five steps in ascending version order. -/
def runMigrations (c : Conn) : Option String × Conn :=
  andThenC (execStmt bootstrapStmt c) (fun c1 =>
  andThenC (applyMigration 1 migrationStep1 c1) (fun c2 =>
  andThenC (applyMigration 2 migrationStep2 c2) (fun c3 =>
  andThenC (applyMigration 3 migrationStep3 c3) (fun c4 =>
  andThenC (applyMigration 4 migrationStep4 c4) (fun c5 =>
  applyMigration 5 migrationStep5 c5)))))

def emptyConn : Conn := { db := { appliedVersions := [], tables := [], indexes := [] }, log := [] }

/-! ## Claim C7: range normalization on write paths -/

/-- C7: input normalization clamps range inputs on every write path:
`time_estimate_minutes` −5 → 0 and 999999 → 10080 (clamp to [0,10080],
absent → 0); goal progress 150 with status "completed" → 100 (clamp to
[0,100], then forced to 100 when completed); habit `target_per_week` 0 → 1 and
99 → 14 (clamp to [1,14], absent → 5) — shown for the general rules, the
create/update repository paths and the backup-import row builders. -/
theorem normalization_clamps :
    (∀ v : Int, normalizeTimeEstimateMinutes (some v) = rustClamp v 0 10080) ∧
    normalizeTimeEstimateMinutes none = 0 ∧
    normalizeTimeEstimateMinutes (some (-5)) = 0 ∧
    normalizeTimeEstimateMinutes (some 999999) = 10080 ∧
    (∀ (title description status : String) (priority due_date : Option String)
        (est : Option Int) (now : String) (s : Store),
      (createTask title description status priority due_date est now s).tasks.map
          (·.time_estimate_minutes) =
        s.tasks.map (·.time_estimate_minutes) ++ [normalizeTimeEstimateMinutes est]) ∧
    (∀ (id : Int) (title description status : String) (priority due_date : Option String)
        (est : Option Int) (secondsSince : String → Option Int) (now : String) (s : Store),
      (updateTask id title description status priority due_date est secondsSince now s).tasks.map
          (·.time_estimate_minutes) =
        s.tasks.map (fun r =>
          if r.id == id then normalizeTimeEstimateMinutes est else r.time_estimate_minutes)) ∧
    (∀ (secondsSince : String → Option Int) (now : String) (id : Int) (t : BackupTaskInput),
      (taskRowOfInput secondsSince now id t).time_estimate_minutes =
        normalizeTimeEstimateMinutes t.time_estimate_minutes) ∧
    (∀ v : Int, normalizeProgress (some v) = rustClamp v 0 100) ∧
    (∀ (title description : String) (target_date : Option String) (now : String) (s : Store),
      (createGoal title description (some "completed") (some 150) target_date now s).goals.map
          (·.progress) = s.goals.map (·.progress) ++ [100]) ∧
    (∀ (id : Int) (title description : String) (target_date : Option String) (now : String)
        (s : Store),
      (updateGoal id title description (some "completed") (some 150) target_date now s).goals.map
          (·.progress) = s.goals.map (fun r => if r.id == id then 100 else r.progress)) ∧
    (∀ (now : String) (id : Int) (g : BackupGoalInput),
      (goalRowOfInput now id
        { g with status := some "completed", progress := some 150 }).progress = 100) ∧
    (∀ v : Int, normalizeTargetPerWeek (some v) = rustClamp v 1 14) ∧
    normalizeTargetPerWeek none = 5 ∧
    normalizeTargetPerWeek (some 0) = 1 ∧
    normalizeTargetPerWeek (some 99) = 14 ∧
    (∀ (title description : String) (tpw : Option Int) (color : Option String)
        (now : String) (s : Store),
      (createHabit title description tpw color now s).habits.map (·.target_per_week) =
        s.habits.map (·.target_per_week) ++ [normalizeTargetPerWeek tpw]) ∧
    (∀ (id : Int) (title description : String) (tpw : Option Int) (color : Option String)
        (now : String) (s : Store),
      (updateHabit id title description tpw color now s).habits.map (·.target_per_week) =
        s.habits.map (fun r =>
          if r.id == id then normalizeTargetPerWeek tpw else r.target_per_week)) ∧
    (∀ (now : String) (id : Int) (h : BackupHabitInput),
      (habitRowOfInput now id h).target_per_week = normalizeTargetPerWeek h.target_per_week) := by
  refine ⟨fun v => rfl, rfl, by decide, by decide, ?_, ?_, fun el now id t => rfl, fun v => rfl,
    ?_, ?_, fun now id g => by simp [goalRowOfInput, normalizeGoalStatus],
    fun v => rfl, rfl, by decide, by decide, ?_, ?_, fun now id h => rfl⟩
  · intro title description status priority due_date est now s
    simp [createTask]
  · intro id title description status priority due_date est secondsSince now s
    simp only [updateTask, List.map_map]
    refine List.map_congr_left fun r hr => ?_
    by_cases h : r.id = id <;> simp [h]
  · intro title description target_date now s
    simp [createGoal, normalizeGoalStatus]
  · intro id title description target_date now s
    simp only [updateGoal, List.map_map]
    refine List.map_congr_left fun r hr => ?_
    by_cases h : r.id = id <;> simp [h, normalizeGoalStatus]
  · intro title description tpw color now s
    simp [createHabit]
  · intro id title description tpw color now s
    simp only [updateHabit, List.map_map]
    refine List.map_congr_left fun r hr => ?_
    by_cases h : r.id = id <;> simp [h]

/-! ## Claim C8: timestamp defaulting in import_backup -/

def c8Page : BackupPageInput :=
  { id := none, title := "p", content := "c",
    created_at := some "2020-01-01T00:00:00Z", updated_at := none }

def c8Payload : BackupPayload :=
  { entries := [], pages := [c8Page], tasks := [], goals := [], habits := [], habit_logs := [] }

/-- C8 counterexample: a page record whose `updated_at` is absent but whose
`created_at` is present does NOT get the current processing timestamp as
`updated_at`; it gets the payload's `created_at`. The claim's default rule for
a missing `updated_at` fails at this input. -/
theorem importBackup_updated_at_default_cex :
    ((importBackup (fun _ => none) (fun _ => true) "2025-06-01" "2025-06-01T00:00:00Z"
        c8Payload false emptyStore).2.pages.map (·.updated_at)) =
      ["2020-01-01T00:00:00Z"] ∧
    "2020-01-01T00:00:00Z" ≠ "2025-06-01T00:00:00Z" := by
  constructor
  · rfl
  · decide

/-- C8 (amended): in import_backup, for every page/task/goal/habit record a
missing `created_at` defaults to the current processing timestamp, and a
missing `updated_at` defaults to the resolved `created_at` — which equals the
processing timestamp exactly when `created_at` is also absent. -/
theorem importBackup_timestamp_defaults :
    (∀ (now : String) (id : Int) (p : BackupPageInput),
      (pageRowOfInput now id p).created_at = p.created_at.getD now ∧
      (pageRowOfInput now id p).updated_at = p.updated_at.getD (p.created_at.getD now) ∧
      (pageRowOfInput now id { p with created_at := none, updated_at := none }).updated_at =
        now) ∧
    (∀ (secondsSince : String → Option Int) (now : String) (id : Int) (t : BackupTaskInput),
      (taskRowOfInput secondsSince now id t).created_at = t.created_at.getD now ∧
      (taskRowOfInput secondsSince now id t).updated_at =
        t.updated_at.getD (t.created_at.getD now) ∧
      (taskRowOfInput secondsSince now id
        { t with created_at := none, updated_at := none }).updated_at = now) ∧
    (∀ (now : String) (id : Int) (g : BackupGoalInput),
      (goalRowOfInput now id g).created_at = g.created_at.getD now ∧
      (goalRowOfInput now id g).updated_at = g.updated_at.getD (g.created_at.getD now) ∧
      (goalRowOfInput now id { g with created_at := none, updated_at := none }).updated_at =
        now) ∧
    (∀ (now : String) (id : Int) (h : BackupHabitInput),
      (habitRowOfInput now id h).created_at = h.created_at.getD now ∧
      (habitRowOfInput now id h).updated_at = h.updated_at.getD (h.created_at.getD now) ∧
      (habitRowOfInput now id { h with created_at := none, updated_at := none }).updated_at =
        now) := by
  refine ⟨fun now id p => ⟨rfl, rfl, rfl⟩, fun el now id t => ⟨rfl, rfl, rfl⟩,
    fun now id g => ⟨rfl, rfl, rfl⟩, fun now id h => ⟨rfl, rfl, rfl⟩⟩

/-! ## Claim C10: the import entry upsert overwrites created_at -/

/-- C10: every row at the imported date after `import_backup`'s entry upsert
carries the payload's content fields and the payload's `created_at` (defaulted
to the processing timestamp) — in particular a pre-existing row for that date
has its `created_at` overwritten, unlike `save_entry`. -/
theorem importEntryRow_overwrites_created_at :
    ∀ (now : String) (e : BackupEntryInput) (es : List EntryRow),
      ∀ r2 ∈ importEntryRow now e es, r2.date = e.date →
        r2.created_at = e.created_at.getD now ∧ r2.yesterday = e.yesterday ∧
        r2.today = e.today := by
  intro now e es r2 hmem hdate
  unfold importEntryRow at hmem
  by_cases hany : es.any (fun r => r.date == e.date)
  · rw [if_pos hany] at hmem
    obtain ⟨r, hr, hfr⟩ := List.mem_map.mp hmem
    by_cases hd : r.date == e.date
    · rw [if_pos hd] at hfr
      subst hfr
      exact ⟨rfl, rfl, rfl⟩
    · rw [if_neg hd] at hfr
      subst hfr
      exact absurd (beq_iff_eq.mpr hdate) hd
  · rw [if_neg hany] at hmem
    rcases List.mem_append.mp hmem with hin | hnew
    · rw [List.any_eq_true] at hany
      exact absurd ⟨r2, hin, beq_iff_eq.mpr hdate⟩ hany
    · rcases List.mem_singleton.mp hnew with rfl
      exact ⟨rfl, rfl, rfl⟩

/-- Witness for C10 at a concrete conflicting import. -/
theorem importEntryRow_overwrites_created_at_witness :
    ({ id := 1, date := "2024-01-01", yesterday := "y", today := "t",
       created_at := "C" } : EntryRow).created_at =
        (some "C" : Option String).getD "N" ∧
    ({ id := 1, date := "2024-01-01", yesterday := "y", today := "t",
       created_at := "C" } : EntryRow).yesterday = "y" ∧
    ({ id := 1, date := "2024-01-01", yesterday := "y", today := "t",
       created_at := "C" } : EntryRow).today = "t" :=
  importEntryRow_overwrites_created_at "N"
    { date := "2024-01-01", yesterday := "y", today := "t", created_at := some "C" }
    [{ id := 1, date := "2024-01-01", yesterday := "a", today := "b", created_at := "Z" }]
    { id := 1, date := "2024-01-01", yesterday := "y", today := "t", created_at := "C" }
    (by decide) (by decide)

/-! ## Claim C1: transactional atomicity of import_backup -/

/-- C1: `import_backup` runs the delete phase and every upsert inside one
transaction; a failing statement makes the call return that failure with the
store exactly as before, and the new store is observed only when the whole
transaction commits. -/
theorem importBackup_atomic :
    ∀ (secondsSince : String → Option Int) (isValidDate : String → Bool)
      (todayStr now : String) (payload : BackupPayload) (replaceExisting : Bool) (s : Store),
      (∀ e, importBackupTx secondsSince isValidDate todayStr now payload replaceExisting s =
          .error e →
        importBackup secondsSince isValidDate todayStr now payload replaceExisting s =
          (some e, s)) ∧
      (∀ s2, importBackupTx secondsSince isValidDate todayStr now payload replaceExisting s =
          .ok s2 →
        importBackup secondsSince isValidDate todayStr now payload replaceExisting s =
          (none, s2)) := by
  intro secondsSince isValidDate todayStr now payload replaceExisting s
  constructor
  · intro e h
    simp [importBackup, h]
  · intro s2 h
    simp [importBackup, h]

def c1Store : Store :=
  { emptyStore with
    habit_logs := [{ id := 1, habit_id := 1, date := "2024-01-01", created_at := "T" }] }

def c1Payload : BackupPayload :=
  { entries := [], pages := [], tasks := [], goals := [], habits := [],
    habit_logs := [{ id := some 2, habit_id := 1, date := "2024-01-01", created_at := none }] }

/-- Witness for C1: a habit-log record at a fresh explicit id whose
(habit_id, date) pair collides with an existing row makes its INSERT fail, and
the whole import rolls back, leaving the store untouched. -/
theorem importBackup_atomic_witness :
    importBackup (fun _ => none) (fun _ => true) "D" "N" c1Payload false c1Store =
      (some "UNIQUE constraint failed: habit_logs.habit_id, habit_logs.date", c1Store) :=
  (importBackup_atomic (fun _ => none) (fun _ => true) "D" "N" c1Payload false c1Store).1
    "UNIQUE constraint failed: habit_logs.habit_id, habit_logs.date" rfl

/-! ## Claim C3: per-step behavior of apply_migration -/

lemma execStmt_appliedVersions (stmt : MigStmt) (c : Conn) :
    (execStmt stmt c).2.db.appliedVersions = c.db.appliedVersions := by
  cases stmt with
  | createTableIfNotExists table cols =>
    by_cases h : c.db.tables.any (fun t2 => t2.1 == table) <;> simp [execStmt, h]
  | ensureColumn table col =>
    cases h : tableCols c.db table with
    | none => simp [execStmt, h]
    | some cols => by_cases h2 : col ∈ cols <;> simp [execStmt, h, h2]
  | createIndexIfNotExists idx =>
    by_cases h : idx ∈ c.db.indexes <;> simp [execStmt, h]
  | failing msg => simp [execStmt]

lemma execStmts_appliedVersions : ∀ (stmts : List MigStmt) (c : Conn),
    (execStmts stmts c).2.db.appliedVersions = c.db.appliedVersions := by
  intro stmts
  induction stmts with
  | nil => intro c; rfl
  | cons stmt rest ih =>
    intro c
    have h1 := execStmt_appliedVersions stmt c
    unfold execStmts
    rcases h : execStmt stmt c with ⟨o, c2⟩
    rw [h] at h1
    cases o with
    | some e => exact h1
    | none => rw [ih c2]; exact h1

def c3Conn : Conn :=
  { db := { appliedVersions := [],
            tables := [("schema_migrations", ["version", "applied_at"])],
            indexes := [] },
    log := [] }

/-- Migration step 1 under an injected fault: its first statement succeeds and
its second statement fails (for instance with a disk I/O error). -/
def c3Stmts : List MigStmt :=
  [.createTableIfNotExists "entries" ["id", "date", "yesterday", "today", "created_at"],
   .failing "disk I/O error"]

/-- C3 counterexample: `apply_migration` opens no transaction, so when a step
fails partway through, the schema changes of its already-executed statements
persist (here, the `entries` table survives the step failure); only the
version recording is withheld. -/
theorem applyMigration_not_transactional_cex :
    (applyMigration 1 c3Stmts c3Conn).1 = some "disk I/O error" ∧
    (applyMigration 1 c3Stmts c3Conn).2.db.tables ≠ c3Conn.db.tables ∧
    (applyMigration 1 c3Stmts c3Conn).2.db.tables.any (fun t2 => t2.1 == "entries") = true ∧
    (1 : Int) ∉ (applyMigration 1 c3Stmts c3Conn).2.db.appliedVersions := by
  exact ⟨rfl, by decide, by decide, by decide⟩

/-- C3 (amended): a failing step leaves `schema_migrations` untouched (the
step is not recorded as applied), and a step is recorded as applied exactly
when all of its statements succeeded — but the step does not run in its own
transaction, so schema changes made before the failure persist. -/
theorem applyMigration_records_only_after_success :
    ∀ (version : Int) (stmts : List MigStmt) (c : Conn),
      ((applyMigration version stmts c).1.isSome = true →
        (applyMigration version stmts c).2.db.appliedVersions = c.db.appliedVersions) ∧
      ((applyMigration version stmts c).1 = none →
        version ∈ (applyMigration version stmts c).2.db.appliedVersions) := by
  intro version stmts c
  unfold applyMigration
  by_cases hv : version ∈ c.db.appliedVersions
  · rw [if_pos hv]
    exact ⟨fun h => by simp at h, fun _ => hv⟩
  · rw [if_neg hv]
    have h1 := execStmts_appliedVersions stmts c
    rcases h : execStmts stmts c with ⟨o, c2⟩
    rw [h] at h1
    cases o with
    | some e => exact ⟨fun _ => h1, fun h2 => by simp at h2⟩
    | none =>
      refine ⟨fun h2 => by simp at h2, fun _ => ?_⟩
      simp

/-- Witness for the amended C3 at the faulted step: the failed step left the
recorded versions unchanged. -/
theorem applyMigration_records_only_after_success_witness :
    (applyMigration 1 c3Stmts c3Conn).2.db.appliedVersions = c3Conn.db.appliedVersions :=
  (applyMigration_records_only_after_success 1 c3Stmts c3Conn).1 (by decide)

/-! ## Claim C4: save_entry is a created_at-preserving upsert -/

lemma length_filter_date_eq_one : ∀ (es : List EntryRow) (d : String),
    (es.map (·.date)).Nodup → es.any (fun r => r.date == d) = true →
    (es.filter (fun r => r.date == d)).length = 1 := by
  intro es d
  induction es with
  | nil => intro _ h; simp at h
  | cons r rest ih =>
    intro hnd hany
    simp only [List.map_cons, List.nodup_cons] at hnd
    by_cases hd : (r.date == d) = true
    · have hdq : r.date = d := beq_iff_eq.mp hd
      have hrest : rest.filter (fun r2 => r2.date == d) = [] := by
        refine List.filter_eq_nil_iff.mpr fun a ha had => ?_
        exact hnd.1 (hdq ▸ (beq_iff_eq.mp had) ▸ List.mem_map_of_mem (·.date) ha)
      simp [List.filter_cons, hd, hrest]
    · have hany2 : rest.any (fun r2 => r2.date == d) = true := by
        simp only [List.any_cons, Bool.or_eq_true] at hany
        exact hany.resolve_left hd
      simp only [List.filter_cons, hd]
      exact ih hnd.2 hany2

/-- C4: `save_entry` is an upsert keyed by date — afterwards exactly one row
holds the date, carrying the new `yesterday`/`today`; its `created_at` is the
pre-existing row's value when the date existed and the current timestamp when
the date is new; rows for other dates are untouched. -/
theorem saveEntry_upsert :
    ∀ (d y t now : String) (es : List EntryRow),
      (es.map (·.date)).Nodup →
      ((saveEntry d y t now es).filter (fun r => r.date == d)).length = 1 ∧
      (∀ r2 ∈ saveEntry d y t now es, r2.date = d →
        r2.yesterday = y ∧ r2.today = t ∧
        (∀ r ∈ es, r.date = d → r2.created_at = r.created_at) ∧
        ((∀ r ∈ es, r.date ≠ d) → r2.created_at = now)) ∧
      (∀ r2 ∈ saveEntry d y t now es, r2.date ≠ d → r2 ∈ es) := by
  intro d y t now es hnd
  by_cases hany : es.any (fun r => r.date == d) = true
  · have hmapf :
        (fun r2 : EntryRow => r2.date == d) ∘
          (fun e => if e.date == d then { e with yesterday := y, today := t } else e) =
        fun r : EntryRow => r.date == d := by
      funext r
      by_cases hd : (r.date == d) = true
      · rw [Function.comp_apply, if_pos hd]
      · rw [Function.comp_apply, if_neg hd]
    refine ⟨?_, ?_, ?_⟩
    · rw [saveEntry, if_pos hany, List.filter_map, hmapf, List.length_map]
      exact length_filter_date_eq_one es d hnd hany
    · intro r2 hmem hdate
      rw [saveEntry, if_pos hany] at hmem
      obtain ⟨r, hr, hfr⟩ := List.mem_map.mp hmem
      by_cases hd : (r.date == d) = true
      · rw [if_pos hd] at hfr
        subst hfr
        refine ⟨rfl, rfl, fun r3 hr3 hd3 => ?_, fun hnone => ?_⟩
        · have : r3 = r :=
            List.inj_on_of_nodup_map hnd hr3 hr (by rw [hd3, beq_iff_eq.mp hd])
          rw [this]
        · exact absurd (beq_iff_eq.mp hd) (hnone r hr)
      · rw [if_neg hd] at hfr
        subst hfr
        exact absurd (beq_iff_eq.mpr hdate) hd
    · intro r2 hmem hdate
      rw [saveEntry, if_pos hany] at hmem
      obtain ⟨r, hr, hfr⟩ := List.mem_map.mp hmem
      by_cases hd : (r.date == d) = true
      · rw [if_pos hd] at hfr
        subst hfr
        exact absurd (beq_iff_eq.mp hd) hdate
      · rw [if_neg hd] at hfr
        subst hfr
        exact hr
  · have hall : ∀ r ∈ es, ¬(r.date == d) = true :=
      List.any_eq_false.mp (Bool.not_eq_true _ ▸ eq_false_of_ne_true hany)
    refine ⟨?_, ?_, ?_⟩
    · rw [saveEntry, if_neg hany, List.filter_append,
        List.filter_eq_nil_iff.mpr hall]
      simp
    · intro r2 hmem hdate
      rw [saveEntry, if_neg hany] at hmem
      rcases List.mem_append.mp hmem with hin | hnew
      · exact absurd (beq_iff_eq.mpr hdate) (hall r2 hin)
      · rcases List.mem_singleton.mp hnew with rfl
        exact ⟨rfl, rfl, fun r3 hr3 hd3 => absurd (beq_iff_eq.mpr hd3) (hall r3 hr3),
          fun _ => rfl⟩
    · intro r2 hmem hdate
      rw [saveEntry, if_neg hany] at hmem
      rcases List.mem_append.mp hmem with hin | hnew
      · exact hin
      · rcases List.mem_singleton.mp hnew with rfl
        exact absurd rfl hdate

def c4RowOld : EntryRow :=
  { id := 1, date := "2024-01-01", yesterday := "A", today := "B", created_at := "T0" }

def c4RowNew : EntryRow :=
  { id := 1, date := "2024-01-01", yesterday := "C", today := "D", created_at := "T0" }

/-- Witness for C4: save "2024-01-01" with ("A","B") at time T0, then with
("C","D") at time T1 — one row remains, content "C"/"D", created_at still T0. -/
theorem saveEntry_upsert_witness :
    ((saveEntry "2024-01-01" "C" "D" "T1"
        (saveEntry "2024-01-01" "A" "B" "T0" [])).filter
      (fun r => r.date == "2024-01-01")).length = 1 ∧
    c4RowNew.yesterday = "C" ∧ c4RowNew.today = "D" ∧
    c4RowNew.created_at = c4RowOld.created_at := by
  have h := saveEntry_upsert "2024-01-01" "C" "D" "T1"
    (saveEntry "2024-01-01" "A" "B" "T0" []) (by decide)
  have h2 := h.2.1 c4RowNew (by decide) rfl
  exact ⟨h.1, h2.1, h2.2.1, h2.2.2.1 c4RowOld (by decide) rfl⟩

/-! ## Claim C5: current streak is the maximal consecutive run -/

lemma exists_gap_le_length (dates : List Int) (cursor : Int) :
    ∃ j : Nat, j ≤ dates.length ∧ cursor - (j : Int) ∉ dates := by
  by_contra h
  push_neg at h
  have hsub : ((List.range (dates.length + 1)).map (fun k : Nat => cursor - (k : Int))) ⊆
      dates := by
    intro x hx
    obtain ⟨k, hk, rfl⟩ := List.mem_map.mp hx
    exact h k (Nat.lt_succ_iff.mp (List.mem_range.mp hk))
  have hnd : ((List.range (dates.length + 1)).map (fun k : Nat => cursor - (k : Int))).Nodup :=
    (List.nodup_range _).map (fun a b hab => by omega)
  have hle := (hnd.subperm hsub).length_le
  simp only [List.length_map, List.length_range] at hle
  omega

lemma streakFrom_spec (dates : List Int) :
    ∀ (fuel : Nat) (cursor : Int),
      (∃ j : Nat, j ≤ fuel ∧ cursor - (j : Int) ∉ dates) →
      ∃ m : Nat, streakFrom dates fuel cursor = (m : Int) ∧
        (∀ k : Nat, k < m → cursor - (k : Int) ∈ dates) ∧ cursor - (m : Int) ∉ dates := by
  intro fuel
  induction fuel with
  | zero =>
    intro cursor hj
    obtain ⟨j, hj0, hjnot⟩ := hj
    interval_cases j
    refine ⟨0, rfl, fun k hk => absurd hk (Nat.not_lt_zero k), ?_⟩
    simpa using hjnot
  | succ fuel ih =>
    intro cursor hj
    by_cases hc : cursor ∈ dates
    · obtain ⟨j, hjle, hjnot⟩ := hj
      have hjpos : j ≠ 0 := by
        rintro rfl
        simp at hjnot
        exact hjnot hc
      obtain ⟨j1, rfl⟩ := Nat.exists_eq_succ_of_ne_zero hjpos
      have hnext : ∃ j : Nat, j ≤ fuel ∧ (cursor - 1) - (j : Int) ∉ dates := by
        refine ⟨j1, Nat.lt_succ_iff.mp (Nat.succ_le_iff.mp (by omega)), ?_⟩
        have : (cursor - 1) - (j1 : Int) = cursor - ((j1 + 1 : Nat) : Int) := by push_cast; ring
        rw [this]
        exact hjnot
      obtain ⟨m1, hm1, hmrun, hmstop⟩ := ih (cursor - 1) hnext
      refine ⟨m1 + 1, ?_, ?_, ?_⟩
      · rw [streakFrom, if_pos hc, hm1]
        push_cast
        ring
      · intro k hk
        cases k with
        | zero => simpa using hc
        | succ k1 =>
          have : cursor - ((k1 + 1 : Nat) : Int) = (cursor - 1) - (k1 : Int) := by
            push_cast; ring
          rw [this]
          exact hmrun k1 (by omega)
      · have : cursor - ((m1 + 1 : Nat) : Int) = (cursor - 1) - (m1 : Int) := by
          push_cast; ring
        rw [this]
        exact hmstop
    · refine ⟨0, ?_, fun k hk => absurd hk (Nat.not_lt_zero k), by simpa using hc⟩
      rw [streakFrom, if_neg hc]
      rfl

/-- C5: `compute_current_streak` returns the length of the maximal run of
consecutive calendar days, all in the completion set, ending at today when
today is in the set, otherwise ending at yesterday when yesterday is in the
set, and otherwise 0. -/
theorem computeCurrentStreak_maximal_run :
    ∀ (today : Int) (dates : List Int),
      (today ∈ dates →
        ∃ m : Nat, computeCurrentStreak today dates = (m : Int) ∧
          (∀ k : Nat, k < m → today - (k : Int) ∈ dates) ∧
          today - (m : Int) ∉ dates) ∧
      (today ∉ dates → (today - 1) ∈ dates →
        ∃ m : Nat, computeCurrentStreak today dates = (m : Int) ∧
          (∀ k : Nat, k < m → (today - 1) - (k : Int) ∈ dates) ∧
          (today - 1) - (m : Int) ∉ dates) ∧
      (today ∉ dates → (today - 1) ∉ dates → computeCurrentStreak today dates = 0) := by
  intro today dates
  refine ⟨?_, ?_, ?_⟩
  · intro ht
    have hne : dates ≠ [] := by rintro rfl; simp at ht
    rw [computeCurrentStreak, if_neg hne, if_pos ht]
    obtain ⟨j, hjle, hjnot⟩ := exists_gap_le_length dates today
    exact streakFrom_spec dates dates.length today ⟨j, hjle, hjnot⟩
  · intro ht hy
    have hne : dates ≠ [] := by rintro rfl; simp at hy
    rw [computeCurrentStreak, if_neg hne, if_neg ht, if_pos hy]
    obtain ⟨j, hjle, hjnot⟩ := exists_gap_le_length dates (today - 1)
    exact streakFrom_spec dates dates.length (today - 1) ⟨j, hjle, hjnot⟩
  · intro ht hy
    by_cases hne : dates = []
    · rw [computeCurrentStreak, if_pos hne]
    · rw [computeCurrentStreak, if_neg hne, if_neg ht, if_neg hy]

/-- Witness for C5 at the three concrete scenarios of the spec:
dates {today, today−1, today−2} give streak 3 (and the run stops at
today−3); dates {today−2} give 0; dates {today−1, today−2} with no log for
today give 2. -/
theorem computeCurrentStreak_maximal_run_witness :
    computeCurrentStreak 100 [100, 99, 98] = 3 ∧ (100 - (3 : Nat) : Int) ∉ [100, 99, 98] ∧
    computeCurrentStreak 100 [98] = 0 ∧
    computeCurrentStreak 100 [99, 98] = 2 ∧ (99 - (2 : Nat) : Int) ∉ [99, 98] := by
  obtain ⟨m1, hv1, hrun1, hstop1⟩ :=
    (computeCurrentStreak_maximal_run 100 [100, 99, 98]).1 (by decide)
  have hval1 : computeCurrentStreak 100 [100, 99, 98] = 3 := by decide
  have hm1 : m1 = 3 := by rw [hval1] at hv1; omega
  have h0 := (computeCurrentStreak_maximal_run 100 [98]).2.2 (by decide) (by decide)
  obtain ⟨m2, hv2, hrun2, hstop2⟩ :=
    (computeCurrentStreak_maximal_run 100 [99, 98]).2.1 (by decide) (by decide)
  have hval2 : computeCurrentStreak 100 [99, 98] = 2 := by decide
  have hm2 : m2 = 2 := by rw [hval2] at hv2; omega
  refine ⟨by rw [hv1, hm1]; rfl, by rw [← hm1]; exact hstop1, h0,
    by rw [hv2, hm2]; rfl, by rw [← hm2]; exact hstop2⟩

/-! ## Claim C9: get_goals ordering -/

lemma natCmp_lt_iff (a b : Nat) : natCmp a b = .lt ↔ a < b := by
  unfold natCmp
  split_ifs with h1 h2 <;> simp <;> omega

lemma natCmp_eq_iff (a b : Nat) : natCmp a b = .eq ↔ a = b := by
  unfold natCmp
  split_ifs with h1 h2 <;> simp <;> omega

lemma natCmp_swap (a b : Nat) : natCmp b a = (natCmp a b).swap := by
  unfold natCmp
  split_ifs with h1 h2 <;> simp [Ordering.swap] <;> omega

lemma char_eq_of_toNat_eq {x y : Char} (h : x.toNat = y.toNat) : x = y :=
  Char.ext (UInt32.toNat.inj h)

lemma charListCmp_eq_iff : ∀ (a b : List Char), charListCmp a b = .eq ↔ a = b := by
  intro a
  induction a with
  | nil => intro b; cases b <;> simp [charListCmp]
  | cons x as ih =>
    intro b
    cases b with
    | nil => simp [charListCmp]
    | cons y bs =>
      simp only [charListCmp]
      by_cases h1 : x.toNat < y.toNat
      · have hxy : x ≠ y := fun h => by subst h; omega
        simp [h1, hxy]
      · by_cases h2 : y.toNat < x.toNat
        · have hxy : x ≠ y := fun h => by subst h; omega
          simp [h1, h2, hxy]
        · have hxy : x = y := char_eq_of_toNat_eq (by omega)
          simp [h1, h2, hxy, ih bs]

lemma charListCmp_swap : ∀ (a b : List Char), charListCmp b a = (charListCmp a b).swap := by
  intro a
  induction a with
  | nil => intro b; cases b <;> rfl
  | cons x as ih =>
    intro b
    cases b with
    | nil => rfl
    | cons y bs =>
      simp only [charListCmp]
      by_cases h1 : x.toNat < y.toNat <;> by_cases h2 : y.toNat < x.toNat
      · exact absurd h1 (by omega)
      · simp [h1, h2, Ordering.swap]
      · simp [h1, h2, Ordering.swap]
      · simpa [h1, h2] using ih bs

lemma charListCmp_lt_trans : ∀ (a b c : List Char),
    charListCmp a b = .lt → charListCmp b c = .lt → charListCmp a c = .lt := by
  intro a
  induction a with
  | nil =>
    intro b c hab hbc
    cases c with
    | nil =>
      cases b with
      | nil => exact hab
      | cons y bs => simp [charListCmp] at hbc
    | cons z cs => rfl
  | cons x as ih =>
    intro b c hab hbc
    cases b with
    | nil => simp [charListCmp] at hab
    | cons y bs =>
      cases c with
      | nil => simp [charListCmp] at hbc
      | cons z cs =>
        simp only [charListCmp] at hab hbc ⊢
        by_cases h1 : x.toNat < y.toNat
        · by_cases h3 : y.toNat < z.toNat
          · rw [if_pos (by omega : x.toNat < z.toNat)]
          · by_cases h4 : z.toNat < y.toNat
            · rw [if_neg h3, if_pos h4] at hbc
              simp at hbc
            · rw [if_pos (by omega : x.toNat < z.toNat)]
        · by_cases h2 : y.toNat < x.toNat
          · rw [if_neg h1, if_pos h2] at hab
            simp at hab
          · rw [if_neg h1, if_neg h2] at hab
            by_cases h3 : y.toNat < z.toNat
            · rw [if_pos (by omega : x.toNat < z.toNat)]
            · by_cases h4 : z.toNat < y.toNat
              · rw [if_neg h3, if_pos h4] at hbc
                simp at hbc
              · rw [if_neg h3, if_neg h4] at hbc
                rw [if_neg (by omega : ¬x.toNat < z.toNat),
                  if_neg (by omega : ¬z.toNat < x.toNat)]
                exact ih bs cs hab hbc

lemma then_ne_gt (o p : Ordering) :
    o.then p ≠ .gt ↔ o = .lt ∨ (o = .eq ∧ p ≠ .gt) := by
  cases o <;> simp [Ordering.then]

lemma then_swap (o p : Ordering) : (o.then p).swap = o.swap.then p.swap := by
  cases o <;> simp [Ordering.then, Ordering.swap]

lemma goalKeyCmp_swap (x y : GoalKey) : goalKeyCmp y x = (goalKeyCmp x y).swap := by
  unfold goalKeyCmp
  rw [then_swap, then_swap, then_swap, natCmp_swap x.rank y.rank,
    natCmp_swap x.nullRank y.nullRank, charListCmp_swap x.target y.target,
    charListCmp_swap y.updated x.updated]

lemma goalKeyCmp_eq (x y : GoalKey) : goalKeyCmp x y = .eq → x = y := by
  intro h
  unfold goalKeyCmp at h
  rw [Ordering.then_eq_eq, Ordering.then_eq_eq, Ordering.then_eq_eq] at h
  obtain ⟨h1, h2, h3, h4⟩ := h
  rw [natCmp_eq_iff] at h1 h2
  rw [charListCmp_eq_iff] at h3 h4
  rcases x with ⟨xr, xn, xt, xu⟩
  rcases y with ⟨yr, yn, yt, yu⟩
  simp only at h1 h2 h3 h4
  simp [h1, h2, h3, h4]

lemma goalKeyCmp_lt_trans (x y z : GoalKey) :
    goalKeyCmp x y = .lt → goalKeyCmp y z = .lt → goalKeyCmp x z = .lt := by
  intro hxy hyz
  unfold goalKeyCmp at hxy hyz ⊢
  rw [Ordering.then_eq_lt] at hxy hyz ⊢
  rcases hxy with h1 | ⟨h1, hxy⟩
  · left
    rw [natCmp_lt_iff] at h1 ⊢
    rcases hyz with g1 | ⟨g1, _⟩
    · rw [natCmp_lt_iff] at g1
      omega
    · rw [natCmp_eq_iff] at g1
      omega
  · rw [natCmp_eq_iff] at h1
    rcases hyz with g1 | ⟨g1, hyz⟩
    · left
      rw [natCmp_lt_iff] at g1 ⊢
      omega
    · rw [natCmp_eq_iff] at g1
      right
      refine ⟨(natCmp_eq_iff _ _).mpr (by omega), ?_⟩
      rw [Ordering.then_eq_lt] at hxy hyz ⊢
      rcases hxy with h2 | ⟨h2, hxy⟩
      · left
        rw [natCmp_lt_iff] at h2 ⊢
        rcases hyz with g2 | ⟨g2, _⟩
        · rw [natCmp_lt_iff] at g2
          omega
        · rw [natCmp_eq_iff] at g2
          omega
      · rw [natCmp_eq_iff] at h2
        rcases hyz with g2 | ⟨g2, hyz⟩
        · left
          rw [natCmp_lt_iff] at g2 ⊢
          omega
        · rw [natCmp_eq_iff] at g2
          right
          refine ⟨(natCmp_eq_iff _ _).mpr (by omega), ?_⟩
          rw [Ordering.then_eq_lt] at hxy hyz ⊢
          rcases hxy with h3 | ⟨h3, hxy⟩
          · rcases hyz with g3 | ⟨g3, _⟩
            · exact Or.inl (charListCmp_lt_trans _ _ _ h3 g3)
            · rw [charListCmp_eq_iff] at g3
              exact Or.inl (g3 ▸ h3)
          · rw [charListCmp_eq_iff] at h3
            rcases hyz with g3 | ⟨g3, hyz⟩
            · exact Or.inl (h3.symm ▸ g3)
            · rw [charListCmp_eq_iff] at g3
              right
              refine ⟨(charListCmp_eq_iff _ _).mpr (by rw [h3, g3]), ?_⟩
              exact charListCmp_lt_trans _ _ _ hyz hxy

lemma goalOrdLE_trans (a b c : GoalRow) :
    goalOrdLE a b = true → goalOrdLE b c = true → goalOrdLE a c = true := by
  simp only [goalOrdLE, ne_eq, decide_eq_true_eq]
  intro hab hbc
  rcases h1 : goalKeyCmp (goalKey a) (goalKey b) with _ | _ | _
  · rcases h2 : goalKeyCmp (goalKey b) (goalKey c) with _ | _ | _
    · rw [goalKeyCmp_lt_trans _ _ _ h1 h2]
      simp
    · rw [← goalKeyCmp_eq _ _ h2, h1]
      simp
    · exact absurd h2 hbc
  · rw [goalKeyCmp_eq _ _ h1]
    exact hbc
  · exact absurd h1 hab

lemma goalOrdLE_total (a b : GoalRow) : (goalOrdLE a b || goalOrdLE b a) = true := by
  simp only [goalOrdLE, ne_eq, Bool.or_eq_true, decide_eq_true_eq]
  rcases h : goalKeyCmp (goalKey a) (goalKey b) with _ | _ | _
  · left
    simp [h]
  · left
    simp [h]
  · right
    rw [goalKeyCmp_swap, h]
    simp [Ordering.swap]

lemma goalOrdLE_unfold (a b : GoalRow) :
    goalOrdLE a b = true ↔
      (goalStatusRank a.status < goalStatusRank b.status ∨
        (goalStatusRank a.status = goalStatusRank b.status ∧
          (targetDateNullRank a < targetDateNullRank b ∨
            (targetDateNullRank a = targetDateNullRank b ∧
              (charListCmp (a.target_date.getD "").toList (b.target_date.getD "").toList =
                  Ordering.lt ∨
                ((a.target_date.getD "").toList = (b.target_date.getD "").toList ∧
                  charListCmp b.updated_at.toList a.updated_at.toList ≠ Ordering.gt)))))) := by
  simp only [goalOrdLE, ne_eq, decide_eq_true_eq]
  unfold goalKeyCmp goalKey
  rw [← ne_eq, then_ne_gt, then_ne_gt, then_ne_gt]
  simp only [natCmp_lt_iff, natCmp_eq_iff, charListCmp_eq_iff]

/-- C9: `get_goals` returns a permutation of the goals table sorted by: status
group in the order active < paused < completed < archived < other; then rows
having a `target_date` before rows lacking one; then ascending `target_date`;
then descending `updated_at` as the final tiebreak. -/
theorem getGoals_ordering :
    ∀ s : Store,
      (getGoals s).Perm s.goals ∧
      List.Pairwise (fun a b =>
        goalStatusRank a.status < goalStatusRank b.status ∨
        (goalStatusRank a.status = goalStatusRank b.status ∧
          (targetDateNullRank a < targetDateNullRank b ∨
            (targetDateNullRank a = targetDateNullRank b ∧
              (charListCmp (a.target_date.getD "").toList (b.target_date.getD "").toList =
                  Ordering.lt ∨
                ((a.target_date.getD "").toList = (b.target_date.getD "").toList ∧
                  charListCmp b.updated_at.toList a.updated_at.toList ≠ Ordering.gt))))))
        (getGoals s) := by
  intro s
  refine ⟨List.mergeSort_perm s.goals goalOrdLE, ?_⟩
  have hs := List.sorted_mergeSort goalOrdLE_trans goalOrdLE_total s.goals
  exact hs.imp fun hab => (goalOrdLE_unfold _ _).mp hab

/-! ## Claim C6: running the migration runner twice is idempotent -/

def tablePresent (db : MigDb) (name : String) : Prop :=
  (db.tables.any fun t2 => t2.1 == name) = true

lemma execStmt_tablePresent (stmt : MigStmt) (c : Conn) (name : String) :
    tablePresent c.db name → tablePresent (execStmt stmt c).2.db name := by
  intro h
  unfold tablePresent at h ⊢
  cases stmt with
  | createTableIfNotExists table cols =>
    unfold execStmt
    dsimp only
    by_cases hp : (c.db.tables.any fun t2 => t2.1 == table) = true
    · rw [if_pos hp]
      exact h
    · rw [if_neg hp]
      dsimp only
      rw [List.any_append, h]
      rfl
  | ensureColumn table col =>
    unfold execStmt
    dsimp only
    cases htc : tableCols c.db table with
    | none => exact h
    | some cols =>
      dsimp only
      by_cases hc : cols.contains col = true
      · rw [if_pos hc]
        exact h
      · rw [if_neg hc]
        dsimp only
        rw [List.any_map]
        have heq : ((fun t2 : String × List String => t2.1 == name) ∘
            fun t2 => if (t2.1 == table) = true then (t2.1, t2.2 ++ [col]) else t2) =
            fun t2 : String × List String => t2.1 == name := by
          funext t2
          by_cases ht : (t2.1 == table) = true
          · rw [Function.comp_apply, if_pos ht]
          · rw [Function.comp_apply, if_neg ht]
        rw [heq]
        exact h
  | createIndexIfNotExists idx =>
    unfold execStmt
    dsimp only
    by_cases hp : c.db.indexes.contains idx = true
    · rw [if_pos hp]
      exact h
    · rw [if_neg hp]
      exact h
  | failing msg => exact h

lemma execStmts_tablePresent : ∀ (stmts : List MigStmt) (c : Conn) (name : String),
    tablePresent c.db name → tablePresent (execStmts stmts c).2.db name := by
  intro stmts
  induction stmts with
  | nil => intro c name h; exact h
  | cons stmt rest ih =>
    intro c name h
    have h1 := execStmt_tablePresent stmt c name h
    unfold execStmts
    rcases he : execStmt stmt c with ⟨o, c2⟩
    rw [he] at h1
    cases o with
    | some e => exact h1
    | none => exact ih c2 name h1

lemma applyMigration_tablePresent (version : Int) (stmts : List MigStmt) (c : Conn)
    (name : String) :
    tablePresent c.db name → tablePresent (applyMigration version stmts c).2.db name := by
  intro h
  unfold applyMigration
  by_cases hv : version ∈ c.db.appliedVersions
  · rwa [if_pos hv]
  · rw [if_neg hv]
    have h1 := execStmts_tablePresent stmts c name h
    rcases he : execStmts stmts c with ⟨o, c2⟩
    rw [he] at h1
    cases o with
    | some e => exact h1
    | none => exact h1

lemma applyMigration_mem (v version : Int) (stmts : List MigStmt) (c : Conn) :
    v ∈ c.db.appliedVersions → v ∈ (applyMigration version stmts c).2.db.appliedVersions := by
  intro h
  unfold applyMigration
  by_cases hv : version ∈ c.db.appliedVersions
  · rwa [if_pos hv]
  · rw [if_neg hv]
    have h1 := execStmts_appliedVersions stmts c
    rcases he : execStmts stmts c with ⟨o, c2⟩
    rw [he] at h1
    cases o with
    | some e => rwa [h1]
    | none =>
      simp only [List.mem_append]
      exact Or.inl (h1 ▸ h)

lemma applyMigration_recorded (version : Int) (stmts : List MigStmt) (c c2 : Conn) :
    applyMigration version stmts c = (none, c2) → version ∈ c2.db.appliedVersions := by
  intro h
  unfold applyMigration at h
  by_cases hv : version ∈ c.db.appliedVersions
  · rw [if_pos hv] at h
    injection h with _ h2
    exact h2 ▸ hv
  · rw [if_neg hv] at h
    rcases he : execStmts stmts c with ⟨o, ce⟩
    rw [he] at h
    cases o with
    | some e => exact absurd (congrArg Prod.fst h) (by simp)
    | none =>
      injection h with _ h2
      rw [← h2]
      simp

lemma applyMigration_nodup (version : Int) (stmts : List MigStmt) (c : Conn) :
    c.db.appliedVersions.Nodup → (applyMigration version stmts c).2.db.appliedVersions.Nodup := by
  intro h
  unfold applyMigration
  by_cases hv : version ∈ c.db.appliedVersions
  · rwa [if_pos hv]
  · rw [if_neg hv]
    have h1 := execStmts_appliedVersions stmts c
    rcases he : execStmts stmts c with ⟨o, c2⟩
    rw [he] at h1
    cases o with
    | some e => rwa [h1]
    | none =>
      show (c2.db.appliedVersions ++ [version]).Nodup
      rw [h1]
      apply List.Nodup.append h (List.nodup_singleton version)
      intro a ha hb
      rw [List.mem_singleton] at hb
      subst hb
      exact hv ha

lemma applyMigration_skip (version : Int) (stmts : List MigStmt) (c : Conn) :
    version ∈ c.db.appliedVersions → applyMigration version stmts c = (none, c) := by
  intro h
  unfold applyMigration
  rw [if_pos h]

lemma andThenC_none {r : Option String × Conn} {f : Conn → Option String × Conn} {c1 : Conn} :
    andThenC r f = (none, c1) → ∃ cm, r = (none, cm) ∧ f cm = (none, c1) := by
  rcases r with ⟨o, c⟩
  cases o with
  | some e => intro h; exact absurd (congrArg Prod.fst h) (by simp [andThenC])
  | none => intro h; exact ⟨c, rfl, h⟩

lemma andThenC_none_left (c : Conn) (f : Conn → Option String × Conn) :
    andThenC (none, c) f = f c := rfl

lemma execStmt_createTable_present (c : Conn) (name : String) (cols : List String) :
    tablePresent (execStmt (.createTableIfNotExists name cols) c).2.db name := by
  unfold tablePresent execStmt
  dsimp only
  by_cases hp : (c.db.tables.any fun t2 => t2.1 == name) = true
  · rw [if_pos hp]
    exact hp
  · rw [if_neg hp]
    dsimp only
    rw [List.any_append]
    simp

lemma execStmt_bootstrap_of_present (c : Conn) :
    tablePresent c.db "schema_migrations" →
    execStmt bootstrapStmt c = (none, { c with log := c.log ++ [bootstrapStmt] }) := by
  intro h
  unfold tablePresent at h
  unfold bootstrapStmt execStmt
  dsimp only
  rw [if_pos h]

/-- C6: a second run of `run_migrations` on a database the first run fully
migrated changes nothing: the resulting connection state is identical except
that only the `schema_migrations` bootstrap statement was executed again (no
migration step's SQL re-runs), the version rows stay duplicate-free, and every
version 1..5 is recorded. -/
theorem runMigrations_idempotent :
    ∀ c0 c1 : Conn, c0.db.appliedVersions.Nodup → runMigrations c0 = (none, c1) →
      runMigrations c1 = (none, { c1 with log := c1.log ++ [bootstrapStmt] }) ∧
      c1.db.appliedVersions.Nodup ∧
      (∀ v : Int, v = 1 ∨ v = 2 ∨ v = 3 ∨ v = 4 ∨ v = 5 → v ∈ c1.db.appliedVersions) := by
  intro c0 c1 hnd hrun
  unfold runMigrations at hrun
  obtain ⟨cb, hb, hrun⟩ := andThenC_none hrun
  obtain ⟨ca1, h1, hrun⟩ := andThenC_none hrun
  obtain ⟨ca2, h2, hrun⟩ := andThenC_none hrun
  obtain ⟨ca3, h3, hrun⟩ := andThenC_none hrun
  obtain ⟨ca4, h4, h5⟩ := andThenC_none hrun
  have hpb : tablePresent cb.db "schema_migrations" := by
    have h := execStmt_createTable_present c0 "schema_migrations" ["version", "applied_at"]
    rw [show (MigStmt.createTableIfNotExists "schema_migrations" ["version", "applied_at"]) =
      bootstrapStmt from rfl, hb] at h
    exact h
  have hp1 : tablePresent ca1.db "schema_migrations" := by
    have h := applyMigration_tablePresent 1 migrationStep1 cb "schema_migrations" hpb
    rwa [h1] at h
  have hp2 : tablePresent ca2.db "schema_migrations" := by
    have h := applyMigration_tablePresent 2 migrationStep2 ca1 "schema_migrations" hp1
    rwa [h2] at h
  have hp3 : tablePresent ca3.db "schema_migrations" := by
    have h := applyMigration_tablePresent 3 migrationStep3 ca2 "schema_migrations" hp2
    rwa [h3] at h
  have hp4 : tablePresent ca4.db "schema_migrations" := by
    have h := applyMigration_tablePresent 4 migrationStep4 ca3 "schema_migrations" hp3
    rwa [h4] at h
  have hp5 : tablePresent c1.db "schema_migrations" := by
    have h := applyMigration_tablePresent 5 migrationStep5 ca4 "schema_migrations" hp4
    rwa [h5] at h
  have hm1a : (1 : Int) ∈ ca1.db.appliedVersions := applyMigration_recorded 1 _ cb ca1 h1
  have hm2a : (2 : Int) ∈ ca2.db.appliedVersions := applyMigration_recorded 2 _ ca1 ca2 h2
  have hm3a : (3 : Int) ∈ ca3.db.appliedVersions := applyMigration_recorded 3 _ ca2 ca3 h3
  have hm4a : (4 : Int) ∈ ca4.db.appliedVersions := applyMigration_recorded 4 _ ca3 ca4 h4
  have step2mem : ∀ v : Int, v ∈ ca2.db.appliedVersions → v ∈ c1.db.appliedVersions := by
    intro v hv
    have g3 := applyMigration_mem v 3 migrationStep3 ca2 hv
    rw [h3] at g3
    have g4 := applyMigration_mem v 4 migrationStep4 ca3 g3
    rw [h4] at g4
    have g5 := applyMigration_mem v 5 migrationStep5 ca4 g4
    rwa [h5] at g5
  have hm1 : (1 : Int) ∈ c1.db.appliedVersions := by
    refine step2mem 1 ?_
    have g2 := applyMigration_mem 1 2 migrationStep2 ca1 hm1a
    rwa [h2] at g2
  have hm2 : (2 : Int) ∈ c1.db.appliedVersions := step2mem 2 hm2a
  have hm3 : (3 : Int) ∈ c1.db.appliedVersions := by
    have g4 := applyMigration_mem 3 4 migrationStep4 ca3 hm3a
    rw [h4] at g4
    have g5 := applyMigration_mem 3 5 migrationStep5 ca4 g4
    rwa [h5] at g5
  have hm4 : (4 : Int) ∈ c1.db.appliedVersions := by
    have g5 := applyMigration_mem 4 5 migrationStep5 ca4 hm4a
    rwa [h5] at g5
  have hm5 : (5 : Int) ∈ c1.db.appliedVersions := applyMigration_recorded 5 _ ca4 c1 h5
  have hndb : cb.db.appliedVersions.Nodup := by
    have h := execStmt_appliedVersions bootstrapStmt c0
    rw [hb] at h
    rwa [h]
  have hnd1 : ca1.db.appliedVersions.Nodup := by
    have h := applyMigration_nodup 1 migrationStep1 cb hndb
    rwa [h1] at h
  have hnd2 : ca2.db.appliedVersions.Nodup := by
    have h := applyMigration_nodup 2 migrationStep2 ca1 hnd1
    rwa [h2] at h
  have hnd3 : ca3.db.appliedVersions.Nodup := by
    have h := applyMigration_nodup 3 migrationStep3 ca2 hnd2
    rwa [h3] at h
  have hnd4 : ca4.db.appliedVersions.Nodup := by
    have h := applyMigration_nodup 4 migrationStep4 ca3 hnd3
    rwa [h4] at h
  have hnd5 : c1.db.appliedVersions.Nodup := by
    have h := applyMigration_nodup 5 migrationStep5 ca4 hnd4
    rwa [h5] at h
  refine ⟨?_, hnd5, ?_⟩
  · have hboot := execStmt_bootstrap_of_present c1 hp5
    have hs1 := applyMigration_skip 1 migrationStep1
      { c1 with log := c1.log ++ [bootstrapStmt] } hm1
    have hs2 := applyMigration_skip 2 migrationStep2
      { c1 with log := c1.log ++ [bootstrapStmt] } hm2
    have hs3 := applyMigration_skip 3 migrationStep3
      { c1 with log := c1.log ++ [bootstrapStmt] } hm3
    have hs4 := applyMigration_skip 4 migrationStep4
      { c1 with log := c1.log ++ [bootstrapStmt] } hm4
    have hs5 := applyMigration_skip 5 migrationStep5
      { c1 with log := c1.log ++ [bootstrapStmt] } hm5
    unfold runMigrations
    simp only [hboot, andThenC_none_left, hs1, hs2, hs3, hs4, hs5]
  · intro v hv
    rcases hv with rfl | rfl | rfl | rfl | rfl
    · exact hm1
    · exact hm2
    · exact hm3
    · exact hm4
    · exact hm5

/-- Witness for C6 starting from the empty database. -/
theorem runMigrations_idempotent_witness :
    runMigrations (runMigrations emptyConn).2 =
      (none, { (runMigrations emptyConn).2 with
               log := (runMigrations emptyConn).2.log ++ [bootstrapStmt] }) :=
  (runMigrations_idempotent emptyConn (runMigrations emptyConn).2 (by decide) (by decide)).1

/-! ## Claim C2: the task timer invariant -/

/-- The timer invariant on one task row: never running while done. -/
def TimerInvRow (t : TaskRow) : Prop :=
  t.status = "done" → t.timer_started_at = none

/-- The timer invariant on a tasks table. -/
def TimerInvTasks (l : List TaskRow) : Prop :=
  ∀ t ∈ l, TimerInvRow t

/-- The timer invariant on the whole store. -/
def TimerInv (s : Store) : Prop :=
  TimerInvTasks s.tasks

lemma createTask_timerInv (title description status : String)
    (priority due_date : Option String) (est : Option Int) (now : String) (s : Store)
    (h : TimerInv s) : TimerInv (createTask title description status priority due_date est now s) := by
  unfold TimerInv TimerInvTasks at h ⊢
  intro t hmem
  simp only [createTask, List.mem_append, List.mem_singleton] at hmem
  rcases hmem with hin | rfl
  · exact h t hin
  · intro _
    rfl

lemma updateTask_timerInv (id : Int) (title description status : String)
    (priority due_date : Option String) (est : Option Int)
    (secondsSince : String → Option Int) (now : String) (s : Store)
    (h : TimerInv s) :
    TimerInv (updateTask id title description status priority due_date est secondsSince now s) := by
  unfold TimerInv TimerInvTasks TimerInvRow at h ⊢
  intro t hmem
  simp only [updateTask, List.mem_map] at hmem
  obtain ⟨r, hr, hfr⟩ := hmem
  by_cases hid : (r.id == id) = true
  · rw [if_pos hid] at hfr
    subst hfr
    by_cases hst : normalizeStatus status = "done"
    · intro _
      simp [hst]
    · intro hdone
      exact absurd hdone hst
  · rw [if_neg hid] at hfr
    subst hfr
    exact h r hr

lemma updateTaskStatus_timerInv (id : Int) (status : String)
    (secondsSince : String → Option Int) (now : String) (s : Store)
    (h : TimerInv s) : TimerInv (updateTaskStatus id status secondsSince now s) := by
  unfold TimerInv TimerInvTasks TimerInvRow at h ⊢
  intro t hmem
  simp only [updateTaskStatus, List.mem_map] at hmem
  obtain ⟨r, hr, hfr⟩ := hmem
  by_cases hid : (r.id == id) = true
  · rw [if_pos hid] at hfr
    subst hfr
    by_cases hst : normalizeStatus status = "done"
    · intro _
      simp [hst]
    · intro hdone
      exact absurd hdone hst
  · rw [if_neg hid] at hfr
    subst hfr
    exact h r hr

lemma startTaskTimer_timerInv (id : Int) (now : String) (s : Store)
    (h : TimerInv s) : TimerInv (startTaskTimer id now s) := by
  unfold TimerInv TimerInvTasks TimerInvRow at h ⊢
  unfold startTaskTimer
  cases hf : s.tasks.find? (fun r => r.id == id) with
  | none => exact h
  | some row =>
    dsimp only
    by_cases hrun : row.timer_started_at.isSome = true
    · rw [if_pos hrun]
      exact h
    · rw [if_neg hrun]
      intro t hmem
      simp only [List.mem_map] at hmem
      obtain ⟨r, hr, hfr⟩ := hmem
      by_cases hid : (r.id == id) = true
      · rw [if_pos hid] at hfr
        subst hfr
        intro hdone
        exfalso
        have hdone2 : (if row.status = "done" then "in_progress" else row.status) = "done" :=
          hdone
        by_cases hrs : row.status = "done"
        · rw [if_pos hrs] at hdone2
          exact absurd hdone2 (by decide)
        · rw [if_neg hrs] at hdone2
          exact hrs hdone2
      · rw [if_neg hid] at hfr
        subst hfr
        exact h r hr

lemma pauseTaskTimer_timerInv (id : Int) (secondsSince : String → Option Int) (now : String)
    (s : Store) (h : TimerInv s) : TimerInv (pauseTaskTimer id secondsSince now s) := by
  unfold TimerInv TimerInvTasks TimerInvRow at h ⊢
  unfold pauseTaskTimer
  cases hf : s.tasks.find? (fun r => r.id == id) with
  | none => exact h
  | some row =>
    dsimp only
    cases hts : row.timer_started_at with
    | none => exact h
    | some startedAt =>
      intro t hmem
      simp only [List.mem_map] at hmem
      obtain ⟨r, hr, hfr⟩ := hmem
      by_cases hid : (r.id == id) = true
      · rw [if_pos hid] at hfr
        subst hfr
        intro _
        rfl
      · rw [if_neg hid] at hfr
        subst hfr
        exact h r hr

lemma resetTaskTimer_timerInv (id : Int) (now : String) (s : Store)
    (h : TimerInv s) : TimerInv (resetTaskTimer id now s) := by
  unfold TimerInv TimerInvTasks TimerInvRow at h ⊢
  intro t hmem
  simp only [resetTaskTimer, List.mem_map] at hmem
  obtain ⟨r, hr, hfr⟩ := hmem
  by_cases hid : (r.id == id) = true
  · rw [if_pos hid] at hfr
    subst hfr
    intro _
    rfl
  · rw [if_neg hid] at hfr
    subst hfr
    exact h r hr

lemma taskRowOfInput_timerInv (secondsSince : String → Option Int) (now : String) (id : Int)
    (t : BackupTaskInput) : TimerInvRow (taskRowOfInput secondsSince now id t) := by
  unfold TimerInvRow
  by_cases hst : normalizeStatus t.status = "done"
  · intro _
    simp [taskRowOfInput, hst]
  · intro hdone
    exact absurd hdone hst

lemma importTaskRow_timerInv (secondsSince : String → Option Int) (now : String)
    (t : BackupTaskInput) (l : List TaskRow) (hl : TimerInvTasks l) :
    TimerInvTasks (importTaskRow secondsSince now t l) := by
  unfold TimerInvTasks at hl ⊢
  unfold importTaskRow
  cases hti : t.id with
  | some id =>
    dsimp only
    by_cases hany : (l.any fun r => r.id == id) = true
    · rw [if_pos hany]
      intro t2 hmem
      simp only [List.mem_map] at hmem
      obtain ⟨r, hr, hfr⟩ := hmem
      by_cases hid : (r.id == id) = true
      · rw [if_pos hid] at hfr
        subst hfr
        exact taskRowOfInput_timerInv secondsSince now id t
      · rw [if_neg hid] at hfr
        subst hfr
        exact hl r hr
    · rw [if_neg hany]
      intro t2 hmem
      rcases List.mem_append.mp hmem with hin | hnew
      · exact hl t2 hin
      · rw [List.mem_singleton] at hnew
        subst hnew
        exact taskRowOfInput_timerInv secondsSince now id t
  | none =>
    intro t2 hmem
    rcases List.mem_append.mp hmem with hin | hnew
    · exact hl t2 hin
    · rw [List.mem_singleton] at hnew
      subst hnew
      exact taskRowOfInput_timerInv secondsSince now _ t

lemma importTasksFold_timerInv (secondsSince : String → Option Int) (now : String) :
    ∀ (ts : List BackupTaskInput) (l : List TaskRow), TimerInvTasks l →
      TimerInvTasks (ts.foldl (fun acc t => importTaskRow secondsSince now t acc) l) := by
  intro ts
  induction ts with
  | nil => intro l hl; exact hl
  | cons t rest ih =>
    intro l hl
    simp only [List.foldl_cons]
    exact ih _ (importTaskRow_timerInv secondsSince now t l hl)

lemma importBackupTx_ok_tasks (secondsSince : String → Option Int)
    (isValidDate : String → Bool) (todayStr now : String) (payload : BackupPayload)
    (replaceExisting : Bool) (s s2 : Store) :
    importBackupTx secondsSince isValidDate todayStr now payload replaceExisting s = .ok s2 →
    s2.tasks = payload.tasks.foldl (fun acc t => importTaskRow secondsSince now t acc)
      (if replaceExisting then emptyStore else s).tasks := by
  intro h
  simp only [importBackupTx] at h
  rcases hm : payload.habit_logs.foldlM
      (fun acc l => importHabitLogRow isValidDate todayStr now l acc)
      (if replaceExisting then emptyStore else s).habit_logs with e | logs
  · rw [hm] at h
    exact absurd h (by simp)
  · rw [hm] at h
    simp only at h
    injection h with h2
    rw [← h2]

lemma importBackup_timerInv (secondsSince : String → Option Int)
    (isValidDate : String → Bool) (todayStr now : String) (payload : BackupPayload)
    (replaceExisting : Bool) (s : Store) (h : TimerInv s) :
    TimerInv (importBackup secondsSince isValidDate todayStr now payload replaceExisting s).2 := by
  unfold importBackup
  cases htx : importBackupTx secondsSince isValidDate todayStr now payload replaceExisting s with
  | error e => exact h
  | ok s2 =>
    have hts := importBackupTx_ok_tasks secondsSince isValidDate todayStr now payload
      replaceExisting s s2 htx
    unfold TimerInv TimerInvTasks
    dsimp only
    rw [hts]
    apply importTasksFold_timerInv
    cases replaceExisting with
    | false => exact h
    | true =>
      intro t ht
      simp [emptyStore] at ht

/-- Stores reachable from the empty (freshly migrated) database by the task
lifecycle commands and backup import. -/
inductive ReachableStore : Store → Prop where
  | init : ReachableStore emptyStore
  | create_task (title description status : String) (priority due_date : Option String)
      (est : Option Int) (now : String) {s : Store} :
      ReachableStore s →
      ReachableStore (createTask title description status priority due_date est now s)
  | update_task (id : Int) (title description status : String)
      (priority due_date : Option String) (est : Option Int)
      (secondsSince : String → Option Int) (now : String) {s : Store} :
      ReachableStore s →
      ReachableStore (updateTask id title description status priority due_date est
        secondsSince now s)
  | update_task_status (id : Int) (status : String) (secondsSince : String → Option Int)
      (now : String) {s : Store} :
      ReachableStore s → ReachableStore (updateTaskStatus id status secondsSince now s)
  | start_task_timer (id : Int) (now : String) {s : Store} :
      ReachableStore s → ReachableStore (startTaskTimer id now s)
  | pause_task_timer (id : Int) (secondsSince : String → Option Int) (now : String)
      {s : Store} :
      ReachableStore s → ReachableStore (pauseTaskTimer id secondsSince now s)
  | reset_task_timer (id : Int) (now : String) {s : Store} :
      ReachableStore s → ReachableStore (resetTaskTimer id now s)
  | import_backup (secondsSince : String → Option Int) (isValidDate : String → Bool)
      (todayStr now : String) (payload : BackupPayload) (replaceExisting : Bool) {s : Store} :
      ReachableStore s →
      ReachableStore (importBackup secondsSince isValidDate todayStr now payload
        replaceExisting s).2

/-- C2: in every store reachable by create/update/status-change/timer
operations and backup import, no task is ever observed with status done and a
running timer; and a status change into done folds the elapsed time into
`timer_accumulated_seconds` and clears `timer_started_at`. -/
theorem taskTimer_never_running_while_done :
    (∀ s : Store, ReachableStore s →
      ∀ t ∈ s.tasks, t.status = "done" → t.timer_started_at = none) ∧
    (∀ (id : Int) (secondsSince : String → Option Int) (now : String) (s : Store) (t : TaskRow),
      s.tasks.find? (fun r => r.id == id) = some t →
      ∀ t2 ∈ (updateTaskStatus id "done" secondsSince now s).tasks, t2.id = id →
        t2.timer_started_at = none ∧
        t2.timer_accumulated_seconds = t.timer_accumulated_seconds +
          (match t.timer_started_at with
           | some startedAt => elapsedSince secondsSince startedAt
           | none => 0)) := by
  constructor
  · intro s hreach
    induction hreach with
    | init => intro t ht; simp [emptyStore] at ht
    | create_task title description status priority due_date est now hs ih =>
      exact createTask_timerInv title description status priority due_date est now _ ih
    | update_task id title description status priority due_date est secondsSince now hs ih =>
      exact updateTask_timerInv id title description status priority due_date est
        secondsSince now _ ih
    | update_task_status id status secondsSince now hs ih =>
      exact updateTaskStatus_timerInv id status secondsSince now _ ih
    | start_task_timer id now hs ih => exact startTaskTimer_timerInv id now _ ih
    | pause_task_timer id secondsSince now hs ih =>
      exact pauseTaskTimer_timerInv id secondsSince now _ ih
    | reset_task_timer id now hs ih => exact resetTaskTimer_timerInv id now _ ih
    | import_backup secondsSince isValidDate todayStr now payload replaceExisting hs ih =>
      exact importBackup_timerInv secondsSince isValidDate todayStr now payload
        replaceExisting _ ih
  · intro id secondsSince now s t hfind t2 hmem hid
    simp only [updateTaskStatus, List.mem_map] at hmem
    rw [hfind] at hmem
    obtain ⟨r, hr, hfr⟩ := hmem
    by_cases hid2 : (r.id == id) = true
    · rw [if_pos hid2] at hfr
      subst hfr
      have hn : normalizeStatus "done" = "done" := rfl
      constructor
      · simp [hn]
      · simp only [hn, if_pos]
        cases t.timer_started_at with
        | none => simp
        | some startedAt => rfl
    · rw [if_neg hid2] at hfr
      subst hfr
      exact absurd (beq_iff_eq.mpr hid) hid2

def c2DoneRow : TaskRow :=
  { id := 1, title := "a", description := "b", status := "done", priority := "medium",
    due_date := none, completed_at := some "T0", time_estimate_minutes := 0,
    timer_started_at := none, timer_accumulated_seconds := 0,
    created_at := "T0", updated_at := "T0" }

def c2RunningRow : TaskRow :=
  { id := 1, title := "x", description := "", status := "in_progress", priority := "medium",
    due_date := none, completed_at := none, time_estimate_minutes := 0,
    timer_started_at := some "S", timer_accumulated_seconds := 3,
    created_at := "C", updated_at := "U" }

def c2Store : Store :=
  { emptyStore with tasks := [c2RunningRow] }

def c2UpdatedRow : TaskRow :=
  { id := 1, title := "x", description := "", status := "done", priority := "medium",
    due_date := none, completed_at := some "T2", time_estimate_minutes := 0,
    timer_started_at := none, timer_accumulated_seconds := 10,
    created_at := "C", updated_at := "T2" }

/-- Witness for C2: a task created directly as done has no running timer, and
completing a task with a running timer (started "S", 7 elapsed seconds,
3 accumulated) stops the timer and accumulates 3 + 7 = 10 seconds. -/
theorem taskTimer_never_running_while_done_witness :
    c2DoneRow.timer_started_at = none ∧
    c2UpdatedRow.timer_started_at = none ∧
    c2UpdatedRow.timer_accumulated_seconds = c2RunningRow.timer_accumulated_seconds +
      (match c2RunningRow.timer_started_at with
       | some startedAt => elapsedSince (fun _ => some 7) startedAt
       | none => 0) := by
  have h1 := taskTimer_never_running_while_done.1
    (createTask "a" "b" "done" none none none "T0" emptyStore)
    (ReachableStore.create_task "a" "b" "done" none none none "T0" ReachableStore.init)
    c2DoneRow (by decide) rfl
  have h2 := taskTimer_never_running_while_done.2 1 (fun _ => some 7) "T2" c2Store
    c2RunningRow (by decide) c2UpdatedRow (by decide) rfl
  exact ⟨h1, h2.1, h2.2⟩
